import Mathlib

/-!
Shallow embedding of the `autoconfig` registry (package `autoconfig`,
file embedded from the repository sources) together with its INI loader.

The registry keeps one `section` record per registered name:

* `defaults`  : in the source this is `reflect.New(v.Type())`, a pointer to a
  freshly allocated zero value of the registered type.  Defaults merging
  (`addStructDefaults` / `addMapDefaults`) is dispatched by
  `switch d.Type().Kind()` on that stored value.
* `current`   : the registered value itself; the same object is stored in
  `Config.current[name]` and handed to the loader, which mutates it in place.
  We keep the value once, in `Config.current`, and only a `hasCurrent` flag in
  the section record (the source's `section.current != nil` test), since the
  two locations alias the same object in the source and all loaders in the
  repository mutate only through that shared object.
* `signature` : the JSON serialization of `current` taken after the last
  notification (`json.Marshal`), used for change detection.
* `onchange`  : the attached observers, in attachment order.  Observers are
  opaque callbacks in the source; we name them by `Nat` identifiers and record
  each invocation `r.Reconfigure(s.current)` in a ghost event log
  (`Config.log`), so that invocation counts, order and arguments are
  observable.  `Config.loadCalls` likewise counts loader invocations.

Go values registered as configuration sections are modelled by the universe
`Val`: strings, flat/nested structs (field name, exportedness, value), and a
channel-valued kind `vchan` standing for a value `json.Marshal` rejects.
Slices, maps and numeric fields of the source are outside this universe: no
property below depends on them.  `sync.Locker` acquisition in `load` and the
signal-driven reload goroutine are concurrency plumbing with no effect on the
sequential state and are not modelled.
-/

namespace Autoconfig

mutual

/-- A Go value of a registered configuration section. -/
inductive Val where
  | vstr (s : String)
  | vchan (n : Nat)
  | vstruct (fs : Fields)
  deriving DecidableEq

/-- Struct fields: name, exportedness (`PkgPath == ""` in the source), value. -/
inductive Fields where
  | fnil
  | fcons (fname : String) (exported : Bool) (v : Val) (rest : Fields)
  deriving DecidableEq

end

mutual

/-- `reflect.DeepEqual(f.Interface(), reflect.Zero(f.Type()).Interface())`:
the value equals the zero value of its type. -/
def isZero : Val → Bool
  | .vstr s => s = ""
  | .vchan n => n = 0
  | .vstruct fs => isZeroFields fs

def isZeroFields : Fields → Bool
  | .fnil => true
  | .fcons _ _ v rest => isZero v && isZeroFields rest

end

mutual

/-- The zero value of the type of `v` (`reflect.New(v.Type())`'s pointee). -/
def zeroVal : Val → Val
  | .vstr _ => .vstr ""
  | .vchan _ => .vchan 0
  | .vstruct fs => .vstruct (zeroFields fs)

def zeroFields : Fields → Fields
  | .fnil => .fnil
  | .fcons n e v rest => .fcons n e (zeroVal v) (zeroFields rest)

end

mutual

/-- `to.Type() == from.Type()` of the source's `docopy`. -/
def sameType : Val → Val → Bool
  | .vstr _, .vstr _ => true
  | .vchan _, .vchan _ => true
  | .vstruct fs, .vstruct gs => sameTypeFields fs gs
  | _, _ => false

def sameTypeFields : Fields → Fields → Bool
  | .fnil, .fnil => true
  | .fcons n e v r, .fcons n' e' v' r' =>
    n = n' && e = e' && sameType v v' && sameTypeFields r r'
  | _, _ => false

end

mutual

/-- `docopy(to, from)` from the source: when the types agree, structs are
copied field by field and other kinds by `to.Set(from)`; when the types
differ nothing is copied.  (The source's `reflect.Slice` branch concerns
slice values, which are outside this value universe.) -/
def docopy (dst src : Val) : Val :=
  if sameType dst src then
    match dst, src with
    | .vstruct ts, .vstruct fs => .vstruct (docopyFields ts fs)
    | _, s => s
  else dst

def docopyFields : Fields → Fields → Fields
  | .fnil, _ => .fnil
  | fs, .fnil => fs
  | .fcons n e v r, .fcons _ _ w r' => .fcons n e (docopy v w) (docopyFields r r')

end

/-- `addStructDefaults(to, from)` field loop: unexported fields
(`PkgPath != ""`) are skipped; a field holding the zero value of its type
receives `docopy` of the source field, any other field is left untouched.
(The `CanSet` guard of the source never skips here: the destination is always
the addressable struct allocated by `reflect.New`, and unexported fields were
already skipped.)  The source indexes `from.Field(i)` in lockstep with `to`;
a source struct with fewer fields would panic there and is never built below. -/
def addStructDefaultsFields : Fields → Fields → Fields
  | .fnil, _ => .fnil
  | fs, .fnil => fs
  | .fcons n e v r, .fcons _ _ w r' =>
    .fcons n e (if e && isZero v then docopy v w else v) (addStructDefaultsFields r r')

/-- `addStructDefaults` on the indirected destination and source values. -/
def addStructDefaults (dst src : Val) : Val :=
  match dst, src with
  | .vstruct ts, .vstruct fs => .vstruct (addStructDefaultsFields ts fs)
  | t, _ => t

mutual

/-- `json.Marshal` on the value universe: strings quote, structs list their
exported fields in declaration order, unexported fields are skipped, and a
channel-valued exported field makes marshalling fail (`none`).  String
escaping is not modelled; no string below needs it. -/
def jsonMarshal : Val → Option String
  | .vstr s => some ("\"" ++ s ++ "\"")
  | .vchan _ => none
  | .vstruct fs =>
    match jsonFields fs with
    | some parts => some ("\x7b" ++ String.intercalate "," parts ++ "\x7d")
    | none => none

def jsonFields : Fields → Option (List String)
  | .fnil => some []
  | .fcons n e v rest =>
    if e then
      match jsonMarshal v, jsonFields rest with
      | some sv, some parts => some (("\"" ++ n ++ "\":" ++ sv) :: parts)
      | _, _ => none
    else jsonFields rest

end

/-- `json.Marshal(s.current)` where `s.current : interface{}`:
marshalling `nil` succeeds with `"null"`. -/
def marshalCurrent : Option Val → Option String
  | none => some "null"
  | some v => jsonMarshal v

/-- `string(sig)`: the stored signature; a failed `Marshal` returns `nil`
bytes, whose string conversion is `""`. -/
def sigString : Option String → String
  | some s => s
  | none => ""

/-- Kinds returned by `reflect.Value.Type().Kind()`, restricted to the cases
the `register` dispatch distinguishes. -/
inductive GoKind where
  | kptr
  | kstruct
  | kmap
  | kother
  deriving DecidableEq

/-- The value stored in `section.defaults`: always `reflect.New(v.Type())`,
i.e. a pointer (`Kind() == reflect.Ptr`) to the pointee kept here. -/
structure DefaultsPtr where
  pointee : Val
  deriving DecidableEq

/-- `d.Type().Kind()` for the stored defaults value: `reflect.New` always
returns a pointer, so the kind is `Ptr` whatever the registered type was. -/
def DefaultsPtr.kind (_ : DefaultsPtr) : GoKind := .kptr

/-- The registry's per-name record (`type section struct` in the source). -/
structure Section where
  defaults : DefaultsPtr
  hasCurrent : Bool
  signature : String
  onchange : List Nat
  deriving DecidableEq

/-- Errors are Go `error` values carrying a message; `Load`/`Reload` return
them verbatim. -/
abbrev Err := String

/-- `ErrNoLoader = errors.New("No loader was defined")`. -/
def errNoLoader : Err := "No loader was defined"

/-- `c.current : map[string]interface{}` — association list from section name
to the shared live value. -/
abbrev CurrentMap := List (String × Val)

/-- A `Loader`: receives the name→current mapping, mutates the values in
place (returned as the new mapping) and reports success or an error. -/
abbrev LoaderFn := CurrentMap → CurrentMap × Option Err

/-- `type Config struct` plus ghost instrumentation: `log` records every
observer invocation `(observer, value passed)` in order, `loadCalls` counts
invocations of the loader. -/
structure Config where
  sections : List (String × Section)
  current : CurrentMap
  loader : Option LoaderFn
  loaded : Bool
  log : List (Nat × Option Val)
  loadCalls : Nat

/-- Association-list lookup (Go map read `m[name]`). -/
def alookup {α : Type} : List (String × α) → String → Option α
  | [], _ => none
  | (n, v) :: rest, name => if n = name then some v else alookup rest name

/-- Update the binding of `name` (Go mutation of the map value's referent). -/
def updateSec : List (String × Section) → String → (Section → Section) →
    List (String × Section)
  | [], _, _ => []
  | (n, s) :: rest, name, f =>
    if n = name then (n, f s) :: rest else (n, s) :: updateSec rest name f

/-- Map write `m[name] = v`: replace the binding or append a fresh one. -/
def setEntry {α : Type} : List (String × α) → String → α → List (String × α)
  | [], name, v => [(name, v)]
  | (n, w) :: rest, name, v =>
    if n = name then (n, v) :: rest else (n, w) :: setEntry rest name v

/-- `c.sections[name] = &section{defaults: reflect.New(v.Type()), onchange: []}`
for a name not yet present. -/
def Config.freshSection (c : Config) (name : String) (v : Val) : Config :=
  { c with sections :=
      c.sections ++ [(name, ⟨⟨zeroVal v⟩, false, "", []⟩)] }

/-- The `switch d.Type().Kind()` dispatch of `register`: `d` is the stored
`reflect.New` pointer, so its kind is `Ptr`; the `Struct` and `Map` branches
(which would run `addStructDefaults` / `addMapDefaults`) are unreachable and
the `default` branch leaves the section untouched.  (`addMapDefaults` is not
reproduced: map-kind sections are outside the value universe.) -/
def Config.mergeByKind (c : Config) (name : String) (v : Val) : Config :=
  match alookup c.sections name with
  | none => c
  | some sec =>
    match sec.defaults.kind with
    | .kstruct =>
      { c with sections := (updateSec c.sections name
          (fun s => { s with defaults := ⟨addStructDefaults s.defaults.pointee v⟩ })) }
    | .kmap => c
    | _ => c

/-- `if c.sections[name].current == nil { c.sections[name].current = defaults;
c.current[name] = defaults }`. -/
def Config.setCurrentIfNil (c : Config) (name : String) (v : Val) : Config :=
  match alookup c.sections name with
  | none => c
  | some s =>
    if s.hasCurrent then c
    else
      { c with
          sections := updateSec c.sections name (fun s => { s with hasCurrent := true }),
          current := setEntry c.current name v }

/-- `if r != nil { c.sections[name].onchange = append(..., r) }`. -/
def Config.addObs (c : Config) (name : String) (r : Option Nat) : Config :=
  match r with
  | none => c
  | some o =>
    { c with sections := (updateSec c.sections name
        (fun s => { s with onchange := s.onchange ++ [o] })) }

/-- `func (c *Config) register(name string, defaults interface{}, r Reconfigurable)`.
With `defaults == nil` (the `Reconfigure` path) and no section registered
under `name`, the source evaluates `reflect.New(v.Type())` on the zero
`reflect.Value` `v`, which panics; the panic is modelled by `none`. -/
def Config.registerCore (c : Config) (name : String) (defaults : Option Val)
    (r : Option Nat) : Option Config :=
  match defaults with
  | none =>
    match alookup c.sections name with
    | none => none
    | some _ => some (c.addObs name r)
  | some v =>
    let c1 := if (alookup c.sections name).isSome then c else c.freshSection name v
    let c2 := c1.mergeByKind name v
    let c3 := c2.setCurrentIfNil name v
    some (c3.addObs name r)

/-- `func (s *section) change()`: serialize the current value; on a marshal
error or a signature mismatch, invoke every attached observer in attachment
order with the current value, then store the new signature.  Returns the
updated section and the invocation events. -/
def Section.change (s : Section) (cur : Option Val) :
    Section × List (Nat × Option Val) :=
  if (marshalCurrent cur).isNone ∨ sigString (marshalCurrent cur) ≠ s.signature then
    ({ s with signature := sigString (marshalCurrent cur) },
      s.onchange.map (fun o => (o, cur)))
  else (s, [])

/-- The notification pass of `load`: `for _, section := range c.sections {
section.change() }`, reading each section's current value through the shared
mapping. -/
def runChanges : List (String × Section) → CurrentMap →
    List (String × Section) × List (Nat × Option Val)
  | [], _ => ([], [])
  | (n, s) :: rest, cur =>
    let r := s.change (alookup cur n)
    let r' := runChanges rest cur
    ((n, r.1) :: r'.1, r.2 ++ r'.2)

/-- `func (c *Config) load() error`.  The `sync.Locker` acquisition over the
section values is concurrency plumbing with no sequential effect and is not
modelled.  The loader is handed the live mapping and its in-place mutations
persist even when it returns an error. -/
def Config.load (c : Config) : Config × Option Err :=
  match c.loader with
  | none => (c, some errNoLoader)
  | some lf =>
    let res := lf c.current
    let c1 := { c with current := res.1, loadCalls := c.loadCalls + 1 }
    match res.2 with
    | some e => (c1, some e)
    | none =>
      let r := runChanges c1.sections c1.current
      ({ c1 with sections := r.1, log := c1.log ++ r.2 }, none)

/-- `func (c *Config) Load() error { c.loaded = true; return c.load() }`. -/
def Config.Load (c : Config) : Config × Option Err :=
  Config.load { c with loaded := true }

/-- `func (c *Config) Reload() error { return c.Load() }`. -/
def Config.Reload (c : Config) : Config × Option Err :=
  c.Load

/-- `func New(l Loader) *Config` (a `nil` loader is `none`). -/
def Config.new (l : Option LoaderFn) : Config :=
  ⟨[], [], l, false, [], 0⟩

/-- `func (c *Config) Register(name string, s interface{}) bool`.  Whether `s`
implements `UpdatableConfig` is a property of its Go type; it is passed
explicitly as `changedObs`, the ghost identifier of the auto-wrapped
`reconfigurableCfg` observer (or `none`).  When the registry was already
loaded, `Register` itself calls `c.Reload()` and discards its error.
`registerCore` with a non-`nil` defaults value never panics; the `none`
branch is unreachable. -/
def Config.Register (c : Config) (name : String) (s : Val)
    (changedObs : Option Nat) : Config × Bool :=
  match c.registerCore name (some s) changedObs with
  | some c1 => (if c1.loaded then (c1.Reload).1 else c1, true)
  | none => (c, true)

/-- `func (c *Config) Get(name string) (interface{}, bool)`. -/
def Config.Get (c : Config) (name : String) : Option Val :=
  alookup c.current name

/-- `func (c *Config) Reconfigure(name string, r Reconfigurable) bool`:
attach `r`, then, when already loaded and the section has a current value,
invoke `r` immediately with it (one ghost event).  `none` models the panic
inherited from `register` on a not-yet-registered name. -/
def Config.Reconfigure (c : Config) (name : String) (r : Nat) :
    Option (Config × Bool) :=
  match c.registerCore name none (some r) with
  | none => none
  | some c1 =>
    if c1.loaded then
      match c1.Get name with
      | some cfg => some ({ c1 with log := c1.log ++ [(r, some cfg)] }, true)
      | none => some (c1, true)
    else some (c1, true)

/-- An INI file already parsed by `ini.Load`: section name → key/value pairs.
(`ini.Load`'s own read/parse failure is a loader error, modelled abstractly
by `LoaderFn`; the go-ini section lookup of an absent name yields an empty
section, so the `s == nil` branch of the source is dead.) -/
abbrev IniFile := List (String × List (String × String))

/-- The key/value pairs `f.Section(name)` exposes. -/
def sectionKeys (f : IniFile) (n : String) : List (String × String) :=
  (alookup f n).getD []

/-- go-ini's `s.MapTo(sec)` restricted to this value universe: every exported
top-level string field whose key appears in the section is set to the file's
value; all other fields are left untouched.  (Key/tag resolution is collapsed
to the field name; nested and non-string fields are not produced by the
concrete files below.) -/
def mapField (sec : List (String × String)) (n : String) (e : Bool) (v : Val) :
    Val :=
  if e then
    match alookup sec n, v with
    | some fv, .vstr _ => .vstr fv
    | _, _ => v
  else v

def mapToFields (sec : List (String × String)) : Fields → Fields
  | .fnil => .fnil
  | .fcons n e v rest => .fcons n e (mapField sec n e v) (mapToFields sec rest)

def mapTo (sec : List (String × String)) : Val → Val
  | .vstruct fs => .vstruct (mapToFields sec fs)
  | v => v

/-- The loop body of `ini.Loader.Load`: populate every entry of the mapping
from its file section. -/
def mapAll (f : IniFile) (m : CurrentMap) : CurrentMap :=
  m.map (fun p => (p.1, mapTo (sectionKeys f p.1) p.2))

/-- `func (l *Loader) Load(cfg map[string]interface{}) error` of package
`ini`, for a file that parses successfully. -/
def iniLoadFn (f : IniFile) : LoaderFn :=
  fun cfg => (mapAll f cfg, none)

/-- Number of recorded invocations of observer `o` (its `changed` counter). -/
def countObs (log : List (Nat × Option Val)) (o : Nat) : Nat :=
  (log.filter (fun e => e.1 = o)).length

/-! ### Concrete values for the test scenarios

`cfgKN k n` is the test configuration struct `testCfg{Key: k, None: n}`
restricted to its exported fields (the unexported `changed` counter is the
ghost observer count).  `fileFoo`/`fileBar` are the parsed forms of the test
INI file before and after the edit (`[section] key=foo` / `key=bar`). -/

def cfgKN (k n : String) : Val :=
  .vstruct (.fcons "Key" true (.vstr k) (.fcons "None" true (.vstr n) .fnil))

def fileFoo : IniFile := [("section", [("Key", "foo")])]

def fileBar : IniFile := [("section", [("Key", "bar")])]

/-- The registry of the concrete scenario: an INI loader over the initial
file, with `testCfg{None: "foobar"}` registered under `"section"`; the struct
implements `UpdatableConfig`, so its wrapped `Changed` hook is observer `0`. -/
def scenCfg : Config :=
  ((Config.new (some (iniLoadFn fileFoo))).Register "section"
    (cfgKN "" "foobar") (some 0)).1

/-- The registry after `Load()`. -/
def scenLoaded : Config := (scenCfg.Load).1

/-- The registry after the on-disk file was edited to `key=bar`: the loader
object is unchanged but now reads the new content, modelled by swapping the
parsed file inside the loader function. -/
def scenEdited : Config :=
  { scenLoaded with loader := some (iniLoadFn fileBar) }

/-- The registry and error after `Reload()` against the edited file. -/
def scenReloaded : Config × Option Err := scenEdited.Reload

/-- A loader that mutates the mapping in place and then fails: the `Loader`
interface permits this, and the repository's own INI loader behaves this way
when `MapTo` succeeds on one section and fails on a later one. -/
def badLoader : LoaderFn :=
  fun _ => ([("section", cfgKN "x" "")], some "boom")

/-- Registry for the loader-failure counterexample. -/
def preFail : Config :=
  ((Config.new (some badLoader)).Register "section" (cfgKN "" "foobar") none).1

/-- A loader that succeeds without touching anything, for counting loader
invocations. -/
def idLoader : LoaderFn := fun m => (m, none)

/-- A registry that has completed one successful `Load` (so `loaded` is set
and the loader has run exactly once). -/
def loadedOnce : Config := ((Config.new (some idLoader)).Load).1

/-- The defaults-merge scenario: `T{X: "a"}` then `T{X: "b", Y: "c"}`
registered under the same name. -/
def cfgXY (x y : String) : Val :=
  .vstruct (.fcons "X" true (.vstr x) (.fcons "Y" true (.vstr y) .fnil))

def mergeOnce : Config :=
  ((Config.new none).Register "s" (cfgXY "a" "") none).1

def mergeTwice : Config :=
  (mergeOnce.Register "s" (cfgXY "b" "c") none).1

/-! ## Association-list lemmas -/

@[simp] theorem alookup_nil {α : Type} (n : String) :
    alookup ([] : List (String × α)) n = none := rfl

@[simp] theorem alookup_cons {α : Type} (m : String) (v : α)
    (rest : List (String × α)) (n : String) :
    alookup ((m, v) :: rest) n = if m = n then some v else alookup rest n := rfl

theorem alookup_append {α : Type} {xs : List (String × α)}
    (ys : List (String × α)) {n : String} (h : alookup xs n = none) :
    alookup (xs ++ ys) n = alookup ys n := by
  induction xs with
  | nil => rfl
  | cons p rest ih =>
    obtain ⟨m, v⟩ := p
    simp only [alookup_cons, List.cons_append] at h ⊢
    split at h
    · exact absurd h (by simp)
    · simp [*, ih h]

theorem updateSec_append {xs : List (String × Section)}
    (ys : List (String × Section)) {n : String} (f : Section → Section)
    (h : alookup xs n = none) :
    updateSec (xs ++ ys) n f = xs ++ updateSec ys n f := by
  induction xs with
  | nil => rfl
  | cons p rest ih =>
    obtain ⟨m, v⟩ := p
    simp only [alookup_cons] at h
    split at h
    · exact absurd h (by simp)
    · simp only [List.cons_append, updateSec, if_neg (by assumption), List.append_eq]
      rw [ih h]

theorem alookup_updateSec {xs : List (String × Section)} {n : String}
    {s : Section} (f : Section → Section) (h : alookup xs n = some s) :
    alookup (updateSec xs n f) n = some (f s) := by
  induction xs with
  | nil => simp at h
  | cons p rest ih =>
    obtain ⟨m, v⟩ := p
    by_cases hm : m = n
    · subst hm
      simp only [alookup_cons, if_pos rfl] at h
      cases h
      simp [updateSec, alookup_cons]
    · simp only [alookup_cons, if_neg hm] at h
      simp only [updateSec, if_neg hm, alookup_cons]
      exact ih h

theorem alookup_setEntry {α : Type} (xs : List (String × α)) (n : String)
    (v : α) : alookup (setEntry xs n v) n = some v := by
  induction xs with
  | nil => simp [setEntry]
  | cons p rest ih =>
    obtain ⟨m, w⟩ := p
    by_cases hm : m = n
    · simp [setEntry, if_pos hm, hm]
    · simp [setEntry, if_neg hm, hm, ih]

/-! ## Field-preservation lemmas for `register`'s building blocks

`register` only ever touches `sections` and `current`; the loader, loaded
flag, ghost log and loader-call count pass through untouched. -/

@[simp] theorem freshSection_loader (c : Config) (n : String) (v : Val) :
    (c.freshSection n v).loader = c.loader := rfl

@[simp] theorem freshSection_loaded (c : Config) (n : String) (v : Val) :
    (c.freshSection n v).loaded = c.loaded := rfl

@[simp] theorem freshSection_log (c : Config) (n : String) (v : Val) :
    (c.freshSection n v).log = c.log := rfl

@[simp] theorem freshSection_loadCalls (c : Config) (n : String) (v : Val) :
    (c.freshSection n v).loadCalls = c.loadCalls := rfl

@[simp] theorem freshSection_current (c : Config) (n : String) (v : Val) :
    (c.freshSection n v).current = c.current := rfl

/-- The defaults-merge dispatch is the identity: the stored defaults value is
the `reflect.New` pointer, its kind is `Ptr`, and the `Struct`/`Map` branches
never run. -/
theorem mergeByKind_eq (c : Config) (n : String) (v : Val) :
    c.mergeByKind n v = c := by
  unfold Config.mergeByKind
  cases alookup c.sections n <;> rfl

@[simp] theorem setCurrentIfNil_loader (c : Config) (n : String) (v : Val) :
    (c.setCurrentIfNil n v).loader = c.loader := by
  unfold Config.setCurrentIfNil
  cases alookup c.sections n
  · rfl
  · dsimp only; split <;> rfl

@[simp] theorem setCurrentIfNil_loaded (c : Config) (n : String) (v : Val) :
    (c.setCurrentIfNil n v).loaded = c.loaded := by
  unfold Config.setCurrentIfNil
  cases alookup c.sections n
  · rfl
  · dsimp only; split <;> rfl

@[simp] theorem setCurrentIfNil_log (c : Config) (n : String) (v : Val) :
    (c.setCurrentIfNil n v).log = c.log := by
  unfold Config.setCurrentIfNil
  cases alookup c.sections n
  · rfl
  · dsimp only; split <;> rfl

@[simp] theorem setCurrentIfNil_loadCalls (c : Config) (n : String) (v : Val) :
    (c.setCurrentIfNil n v).loadCalls = c.loadCalls := by
  unfold Config.setCurrentIfNil
  cases alookup c.sections n
  · rfl
  · dsimp only; split <;> rfl

@[simp] theorem addObs_loader (c : Config) (n : String) (r : Option Nat) :
    (c.addObs n r).loader = c.loader := by
  unfold Config.addObs; cases r <;> rfl

@[simp] theorem addObs_loaded (c : Config) (n : String) (r : Option Nat) :
    (c.addObs n r).loaded = c.loaded := by
  unfold Config.addObs; cases r <;> rfl

@[simp] theorem addObs_log (c : Config) (n : String) (r : Option Nat) :
    (c.addObs n r).log = c.log := by
  unfold Config.addObs; cases r <;> rfl

@[simp] theorem addObs_loadCalls (c : Config) (n : String) (r : Option Nat) :
    (c.addObs n r).loadCalls = c.loadCalls := by
  unfold Config.addObs; cases r <;> rfl

@[simp] theorem addObs_current (c : Config) (n : String) (r : Option Nat) :
    (c.addObs n r).current = c.current := by
  unfold Config.addObs; cases r <;> rfl

/-! ## `register` characterizations -/

/-- The non-`nil`-defaults branch of `register` never panics and is the
composition of its four building blocks. -/
theorem registerCore_some (c : Config) (name : String) (v : Val)
    (r : Option Nat) :
    c.registerCore name (some v) r =
      some ((((if (alookup c.sections name).isSome then c
          else c.freshSection name v).mergeByKind name v).setCurrentIfNil
            name v).addObs name r) := rfl

theorem registerCore_some_fields (c : Config) (name : String) (v : Val)
    (r : Option Nat) :
    ∃ c', c.registerCore name (some v) r = some c' ∧ c'.loader = c.loader ∧
      c'.loaded = c.loaded ∧ c'.log = c.log ∧ c'.loadCalls = c.loadCalls := by
  refine ⟨_, registerCore_some c name v r, ?_, ?_, ?_, ?_⟩ <;>
    (rw [mergeByKind_eq]; simp only [addObs_loader, addObs_loaded, addObs_log,
      addObs_loadCalls, setCurrentIfNil_loader, setCurrentIfNil_loaded,
      setCurrentIfNil_log, setCurrentIfNil_loadCalls]; split <;> simp)

/-- `register` on a not-yet-registered name with a non-`nil` defaults value:
a fresh section is created with zeroed defaults (never merged, see
`mergeByKind_eq`), the registered value becomes the shared current value, and
the optional observer is attached. -/
theorem registerCore_fresh (c : Config) (name : String) (v : Val)
    (r : Option Nat) (hnew : alookup c.sections name = none) :
    c.registerCore name (some v) r =
      some { c with
        sections := c.sections ++ [(name, ⟨⟨zeroVal v⟩, true, "", r.toList⟩)],
        current := setEntry c.current name v } := by
  rw [registerCore_some, mergeByKind_eq, if_neg (by simp [hnew])]
  have hfresh : alookup (c.freshSection name v).sections name =
      some ⟨⟨zeroVal v⟩, false, "", []⟩ := by
    unfold Config.freshSection
    rw [alookup_append _ hnew]
    simp
  have hmid : (c.freshSection name v).setCurrentIfNil name v =
      { c with
        sections := c.sections ++ [(name, ⟨⟨zeroVal v⟩, true, "", []⟩)],
        current := setEntry c.current name v } := by
    unfold Config.setCurrentIfNil
    rw [hfresh]
    simp only [Bool.false_eq_true, if_false]
    unfold Config.freshSection
    rw [updateSec_append _ _ hnew]
    simp [updateSec]
  rw [hmid]
  cases r with
  | none => simp [Config.addObs]
  | some o =>
    simp only [Config.addObs, Option.toList]
    rw [updateSec_append _ _ hnew]
    simp [updateSec]

/-- `Register` on a not-yet-registered name before any load: returns `true`
and performs registration only (no reload). -/
theorem Register_fresh (c : Config) (name : String) (v : Val)
    (obs : Option Nat) (hnew : alookup c.sections name = none)
    (hld : c.loaded = false) :
    c.Register name v obs =
      ({ c with
        sections := c.sections ++ [(name, ⟨⟨zeroVal v⟩, true, "", obs.toList⟩)],
        current := setEntry c.current name v }, true) := by
  unfold Config.Register
  rw [registerCore_fresh c name v obs hnew]
  simp [hld]

/-- The `nil`-defaults branch of `register` (the `Reconfigure` path) on an
already-registered name only appends the observer. -/
theorem registerCore_found (c : Config) (name : String) (r : Option Nat)
    {s : Section} (h : alookup c.sections name = some s) :
    c.registerCore name none r = some (c.addObs name r) := by
  unfold Config.registerCore
  rw [h]

/-! ## Serialization and change detection -/

/-- A successful `json.Marshal` never yields the empty string, so a section
whose signature is still the initial `""` always registers as changed. -/
theorem jsonMarshal_ne_empty {v : Val} {str : String}
    (h : jsonMarshal v = some str) : str ≠ "" := by
  have hq : ("\"" : String).length = 1 := rfl
  have hb : ("\x7b" : String).length = 1 := rfl
  have h0 : ("" : String).length = 0 := rfl
  cases v with
  | vstr s =>
    simp only [jsonMarshal, Option.some.injEq] at h
    intro hc
    have hlen := congrArg String.length (hc ▸ h)
    rw [h0, String.length_append, String.length_append, hq] at hlen
    omega
  | vchan n => simp [jsonMarshal] at h
  | vstruct fs =>
    cases hf : jsonFields fs with
    | none => rw [jsonMarshal, hf] at h; exact absurd h (by simp)
    | some parts =>
      rw [jsonMarshal, hf] at h
      simp only [Option.some.injEq] at h
      intro hc
      have hlen := congrArg String.length (hc ▸ h)
      rw [h0, String.length_append, String.length_append, hb] at hlen
      omega

theorem marshalCurrent_ne_empty {cur : Option Val} {str : String}
    (h : marshalCurrent cur = some str) : str ≠ "" := by
  cases cur with
  | none =>
    simp only [marshalCurrent, Option.some.injEq] at h
    subst h; decide
  | some v => exact jsonMarshal_ne_empty h

/-- `change` when detection triggers (marshal error or signature mismatch):
every attached observer is invoked exactly once, in attachment order, with
the current value, and the signature is replaced. -/
theorem change_fire (s : Section) (cur : Option Val)
    (h : marshalCurrent cur = none ∨
      sigString (marshalCurrent cur) ≠ s.signature) :
    s.change cur = ({ s with signature := sigString (marshalCurrent cur) },
      s.onchange.map (fun o => (o, cur))) := by
  unfold Section.change
  rw [if_pos]
  rcases h with h | h
  · exact Or.inl (by simp [h])
  · exact Or.inr h

/-- `change` when the serialization succeeds and equals the stored signature:
no observer runs and the section is untouched. -/
theorem change_noop (s : Section) (cur : Option Val) (str : String)
    (hm : marshalCurrent cur = some str) (hs : s.signature = str) :
    s.change cur = (s, []) := by
  unfold Section.change
  rw [if_neg]
  simp [hm, hs, sigString]

/-- After `change`, the signature always equals the (possibly empty)
serialization of the value just examined. -/
theorem change_sig (s : Section) (cur : Option Val) :
    ((s.change cur).1).signature = sigString (marshalCurrent cur) := by
  unfold Section.change
  split
  · rfl
  · rename_i h
    push_neg at h
    exact h.2.symm

/-- Running `change` twice on the same marshallable value: the second run
fires nothing. -/
theorem change_stable (s : Section) (cur : Option Val)
    (h : (marshalCurrent cur).isSome = true) :
    ((s.change cur).1).change cur = ((s.change cur).1, []) := by
  obtain ⟨str, hstr⟩ := Option.isSome_iff_exists.mp h
  exact change_noop _ _ str hstr (by rw [change_sig, hstr]; rfl)

/-- On a marshallable value, and a signature consistent with an unchanged
file (either never loaded, or equal to the new serialization), `change`
fires exactly when the section had never been loaded. -/
theorem change_first (s : Section) (cur : Option Val)
    (hm : (marshalCurrent cur).isSome = true)
    (hsig : s.signature = "" ∨
      s.signature = sigString (marshalCurrent cur)) :
    (s.change cur).2 =
      if s.signature = "" then s.onchange.map (fun o => (o, cur)) else [] := by
  obtain ⟨str, hstr⟩ := Option.isSome_iff_exists.mp hm
  by_cases hz : s.signature = ""
  · rw [if_pos hz,
      change_fire s cur (Or.inr (by rw [hstr, hz]; exact marshalCurrent_ne_empty hstr))]
  · rw [if_neg hz]
    rcases hsig with h | h
    · exact absurd h hz
    · rw [change_noop s cur str hstr (by rw [h, hstr]; rfl)]

/-! ## The notification pass -/

@[simp] theorem runChanges_nil (cur : CurrentMap) :
    runChanges [] cur = ([], []) := rfl

@[simp] theorem runChanges_cons (n : String) (s : Section)
    (rest : List (String × Section)) (cur : CurrentMap) :
    runChanges ((n, s) :: rest) cur =
      ((n, (s.change (alookup cur n)).1) :: (runChanges rest cur).1,
        (s.change (alookup cur n)).2 ++ (runChanges rest cur).2) := rfl

theorem runChanges_snd (secs : List (String × Section)) (cur : CurrentMap) :
    (runChanges secs cur).2 =
      (secs.map (fun p => (p.2.change (alookup cur p.1)).2)).flatten := by
  induction secs with
  | nil => rfl
  | cons p rest ih =>
    obtain ⟨n, s⟩ := p
    simp [runChanges_cons, ih]

/-- A second notification pass over the sections just notified, against the
same (marshallable) values, fires nothing and changes nothing. -/
theorem runChanges_stable (secs : List (String × Section)) (cur : CurrentMap)
    (h : ∀ p ∈ secs, (marshalCurrent (alookup cur p.1)).isSome = true) :
    runChanges (runChanges secs cur).1 cur = ((runChanges secs cur).1, []) := by
  induction secs with
  | nil => rfl
  | cons p rest ih =>
    obtain ⟨n, s⟩ := p
    have hn := h (n, s) (by simp)
    have hr := ih (fun q hq => h q (by simp [hq]))
    simp only [runChanges_cons]
    rw [change_stable s (alookup cur n) hn, hr]
    simp

/-! ## The INI loader is idempotent against an unchanged file -/

theorem mapField_idem (sec : List (String × String)) (n : String) (e : Bool)
    (v : Val) : mapField sec n e (mapField sec n e v) = mapField sec n e v := by
  unfold mapField
  by_cases he : e
  · simp only [if_pos he]
    cases hk : alookup sec n with
    | none => cases v <;> simp [hk]
    | some fv => cases v <;> simp [hk]
  · simp [he]

theorem mapToFields_idem (sec : List (String × String)) :
    ∀ fs, mapToFields sec (mapToFields sec fs) = mapToFields sec fs
  | .fnil => rfl
  | .fcons n e v rest => by
    simp [mapToFields, mapField_idem, mapToFields_idem sec rest]

theorem mapTo_idem (sec : List (String × String)) (v : Val) :
    mapTo sec (mapTo sec v) = mapTo sec v := by
  cases v <;> simp [mapTo, mapToFields_idem]

theorem mapAll_idem (f : IniFile) (m : CurrentMap) :
    mapAll f (mapAll f m) = mapAll f m := by
  unfold mapAll
  rw [List.map_map]
  induction m with
  | nil => rfl
  | cons p rest ih =>
    obtain ⟨n, v⟩ := p
    simp only [List.map_cons, Function.comp, mapTo_idem]
    rw [show (List.map ((fun p => (p.1, mapTo (sectionKeys f p.1) p.2)) ∘
        fun p => (p.1, mapTo (sectionKeys f p.1) p.2)) rest) =
      List.map (fun p => (p.1, mapTo (sectionKeys f p.1) p.2)) rest from ih]

/-! ## `load` and `Load` -/

theorem load_noLoader (c : Config) (h : c.loader = none) :
    c.load = (c, some errNoLoader) := by
  unfold Config.load
  rw [h]

theorem Load_noLoader (c : Config) (h : c.loader = none) :
    c.Load = ({ c with loaded := true }, some errNoLoader) :=
  load_noLoader { c with loaded := true } h

theorem load_err (c : Config) (lf : LoaderFn) (m' : CurrentMap) (e : Err)
    (hl : c.loader = some lf) (hres : lf c.current = (m', some e)) :
    c.load = ({ c with current := m', loadCalls := c.loadCalls + 1 }, some e) := by
  unfold Config.load
  rw [hl]
  simp only [hres]

theorem load_ok (c : Config) (lf : LoaderFn) (m' : CurrentMap)
    (hl : c.loader = some lf) (hres : lf c.current = (m', none)) :
    c.load = ({ c with
      current := m', loadCalls := c.loadCalls + 1,
      sections := (runChanges c.sections m').1,
      log := c.log ++ (runChanges c.sections m').2 }, none) := by
  unfold Config.load
  rw [hl]
  simp only [hres]

theorem Load_err (c : Config) (lf : LoaderFn) (m' : CurrentMap) (e : Err)
    (hl : c.loader = some lf) (hres : lf c.current = (m', some e)) :
    c.Load = ({ c with
      loaded := true, current := m',
      loadCalls := c.loadCalls + 1 }, some e) :=
  load_err { c with loaded := true } lf m' e hl hres

theorem Load_ok (c : Config) (lf : LoaderFn) (m' : CurrentMap)
    (hl : c.loader = some lf) (hres : lf c.current = (m', none)) :
    c.Load = ({ c with
      loaded := true,
      current := m', loadCalls := c.loadCalls + 1,
      sections := (runChanges c.sections m').1,
      log := c.log ++ (runChanges c.sections m').2 }, none) :=
  load_ok { c with loaded := true } lf m' hl hres

/-- Shared by the late-binding results: on a loaded registry whose section
has a current value, `Reconfigure` attaches the observer and invokes it
exactly once, with the current value, before returning. -/
theorem reconfigure_loaded (c : Config) (name : String) (r : Nat)
    {s : Section} {v : Val} (hld : c.loaded = true)
    (hs : alookup c.sections name = some s)
    (hv : alookup c.current name = some v) :
    c.Reconfigure name r =
      some ({ c.addObs name (some r) with
        log := c.log ++ [(r, some v)] }, true) := by
  unfold Config.Reconfigure
  rw [registerCore_found c name (some r) hs]
  have hld' : (c.addObs name (some r)).loaded = true := by
    rw [addObs_loaded]; exact hld
  have hv' : (c.addObs name (some r)).Get name = some v := by
    unfold Config.Get
    rw [addObs_current]; exact hv
  simp only [hld', hv', if_pos, addObs_log]

/-! ## The claims -/

/-- C1: concrete scenario.  With one section registered as
`Register("section", testCfg{Key: "", None: "foobar"})` (its `Changed` hook
auto-wrapped as observer `0`) and the file supplying `section.key=foo`,
`Load()` succeeds, the current value is `{Key: "foo", None: "foobar"}`, and
the observer has run once.  After the file is edited to `section.key=bar`,
`Reload()` succeeds, the current value is `{Key: "bar", None: "foobar"}`, and
the observer's invocation count increased by exactly one. -/
theorem C1_scenario :
    (scenCfg.Load).2 = none ∧
    scenLoaded.Get "section" = some (cfgKN "foo" "foobar") ∧
    countObs scenLoaded.log 0 = 1 ∧
    scenReloaded.2 = none ∧
    scenReloaded.1.Get "section" = some (cfgKN "bar" "foobar") ∧
    countObs scenReloaded.1.log 0 = countObs scenLoaded.log 0 + 1 := by
  decide

/-- C2, counterexample.  A loader may mutate the shared current values in
place and then return an error (the repository's INI loader does exactly
this when `MapTo` fails on a later section).  `Load` then returns the error
verbatim, yet the section's current value is no longer its pre-reload value,
refuting the claim's "every section is left in its pre-reload state (no
partial mutation is visible)". -/
theorem C2_counterexample :
    (preFail.Load).2 = some "boom" ∧
    preFail.Get "section" = some (cfgKN "" "foobar") ∧
    (preFail.Load).1.Get "section" = some (cfgKN "x" "") ∧
    cfgKN "x" "" ≠ cfgKN "" "foobar" := by
  decide

/-- C2, amended.  When the loader returns an error, `Load`/`Reload` return
that error verbatim, no observer is invoked (the log is untouched), no
section record — in particular no signature — is updated, and the only other
state change is that the current values stand as the loader left them: the
registry performs no rollback of the loader's in-place mutations. -/
theorem C2_amended (c : Config) (lf : LoaderFn) (m' : CurrentMap) (e : Err)
    (hl : c.loader = some lf) (hres : lf c.current = (m', some e)) :
    c.Load = ({ c with
      loaded := true, current := m',
      loadCalls := c.loadCalls + 1 }, some e) :=
  Load_err c lf m' e hl hres

theorem C2_amended_witness :
    preFail.loader = some badLoader ∧
    badLoader preFail.current = ([("section", cfgKN "x" "")], some "boom") ∧
    preFail.Load = ({ preFail with
      loaded := true, current := [("section", cfgKN "x" "")],
      loadCalls := preFail.loadCalls + 1 }, some "boom") :=
  ⟨rfl, rfl, C2_amended preFail badLoader _ _ rfl rfl⟩

/-- C3, counterexample.  On a registry that has already loaded
(`loadedOnce.loadCalls = 1`), `Register` itself calls `c.Reload()`, which
invokes the loader: the call count rises to `2`, refuting "the Loader is
never invoked from within Register, regardless of whether a Load has already
been performed". -/
theorem C3_counterexample :
    loadedOnce.loaded = true ∧
    loadedOnce.loadCalls = 1 ∧
    (loadedOnce.Register "s" (cfgKN "" "") none).1.loadCalls = 2 := by
  decide

/-- C3, amended.  `Register` always returns success; it does not trigger a
load only as long as no `Load`/`Reload` has been performed on the registry:
before the first load the loader is not invoked and no observer runs, while
on an already-loaded registry `Register` itself calls `Reload` (hence the
loader). -/
theorem C3_amended (c : Config) (name : String) (v : Val) (obs : Option Nat)
    (h : c.loaded = false) :
    (c.Register name v obs).2 = true ∧
    (c.Register name v obs).1.loadCalls = c.loadCalls ∧
    (c.Register name v obs).1.log = c.log := by
  obtain ⟨c', hc', hloader, hloaded, hlog, hcalls⟩ :=
    registerCore_some_fields c name v obs
  unfold Config.Register
  rw [hc']
  have : c'.loaded = false := by rw [hloaded, h]
  simp [this, hlog, hcalls]

theorem C3_amended_witness :
    (Config.new none).loaded = false ∧
    (((Config.new none).Register "s" (cfgKN "" "") none).2 = true ∧
      ((Config.new none).Register "s" (cfgKN "" "") none).1.loadCalls =
        (Config.new none).loadCalls ∧
      ((Config.new none).Register "s" (cfgKN "" "") none).1.log =
        (Config.new none).log) :=
  ⟨rfl, C3_amended (Config.new none) "s" (cfgKN "" "") none rfl⟩

/-- C4, counterexample.  `Reconfigure` on a name that has not been
registered reaches `reflect.New(v.Type())` with `v` the zero
`reflect.Value` (the `defaults` argument is `nil`), which panics — modelled
by `none`.  This refutes "calling Reconfigure(name, observer) is safe (does
not panic), returns true, and implicitly creates an empty section". -/
theorem C4_counterexample :
    (Config.new none).Reconfigure "section" 0 = none := rfl

/-- C4, amended.  `Reconfigure` is safe only on an already-registered name
(as the source's own documentation requires): it then returns `true` and
appends the observer to the section's observer list.  On a
not-yet-registered name it panics instead of creating an empty section. -/
theorem C4_amended (c : Config) (name : String) (r : Nat) (s : Section)
    (h : alookup c.sections name = some s) :
    ∃ c', c.Reconfigure name r = some (c', true) ∧
      alookup c'.sections name =
        some { s with onchange := s.onchange ++ [r] } := by
  unfold Config.Reconfigure
  rw [registerCore_found c name (some r) h]
  have hsec : alookup (c.addObs name (some r)).sections name =
      some { s with onchange := s.onchange ++ [r] } := by
    unfold Config.addObs
    exact alookup_updateSec _ h
  dsimp only
  by_cases hld : (c.addObs name (some r)).loaded
  · cases hget : (c.addObs name (some r)).Get name with
    | none =>
      refine ⟨c.addObs name (some r), ?_, hsec⟩
      rw [if_pos hld]
    | some cfg =>
      refine ⟨{ c.addObs name (some r) with
        log := (c.addObs name (some r)).log ++ [(r, some cfg)] }, ?_, hsec⟩
      rw [if_pos hld]
  · refine ⟨c.addObs name (some r), ?_, hsec⟩
    rw [if_neg hld]

theorem C4_amended_witness :
    alookup mergeOnce.sections "s" = some ⟨⟨cfgXY "" ""⟩, true, "", []⟩ ∧
    ∃ c', mergeOnce.Reconfigure "s" 5 = some (c', true) ∧
      alookup c'.sections "s" = some ⟨⟨cfgXY "" ""⟩, true, "", [5]⟩ :=
  ⟨by decide, C4_amended mergeOnce "s" 5 ⟨⟨cfgXY "" ""⟩, true, "", []⟩ (by decide)⟩

/-- C5: the code contradicts the claimed merge.  After registering
`{X: "a"}` and then `{X: "b", Y: "c"}` under one name, the remembered
defaults are still the zero value `{X: "", Y: ""}`, not the claimed
`{X: "a", Y: "c"}`: the dispatch `switch d.Type().Kind()` inspects the
stored `reflect.New` pointer, whose kind is `Ptr`, so `addStructDefaults`
is never invoked.  The third conjunct shows that the (dead) merge function
itself would have produced exactly the claimed first-non-zero-wins result,
as the previous revision of `register` (which called it unconditionally,
via `addDefaults`) did. -/
theorem C5_code_bug :
    (alookup mergeTwice.sections "s").map (fun s => s.defaults.pointee) =
      some (cfgXY "" "") ∧
    (alookup mergeTwice.sections "s").map (fun s => s.defaults.pointee) ≠
      some (cfgXY "a" "c") ∧
    addStructDefaults (addStructDefaults (cfgXY "" "") (cfgXY "a" ""))
      (cfgXY "b" "c") = cfgXY "a" "c" := by
  decide

/-- C6: reload idempotence.  Against an unchanged file (an INI loader over a
fixed parsed file), when every section's post-load value marshals
successfully and every signature is consistent with that file (still the
initial `""`, or equal to the post-load serialization from an earlier load
of the same file): `Load()` succeeds, a second `Reload()` succeeds and
invokes no observer (the log is unchanged), and the first call invokes
exactly the observers of the sections being loaded for the first time
(signature still `""`), each once, with the freshly loaded value. -/
theorem C6_idempotent (c : Config) (f : IniFile)
    (hl : c.loader = some (iniLoadFn f))
    (hm : ∀ p ∈ c.sections,
      (marshalCurrent (alookup (mapAll f c.current) p.1)).isSome = true)
    (hsig : ∀ p ∈ c.sections, p.2.signature = "" ∨
      p.2.signature =
        sigString (marshalCurrent (alookup (mapAll f c.current) p.1))) :
    (c.Load).2 = none ∧
    ((c.Load).1.Reload).2 = none ∧
    ((c.Load).1.Reload).1.log = (c.Load).1.log ∧
    (c.Load).1.log = c.log ++ (c.sections.map (fun p =>
      if p.2.signature = "" then
        p.2.onchange.map (fun o => (o, alookup (mapAll f c.current) p.1))
      else [])).flatten := by
  have hres : iniLoadFn f c.current = (mapAll f c.current, none) := rfl
  have h1 := Load_ok c _ _ hl hres
  have hL2 : (c.Load).2 = none := by rw [h1]
  have hL1 : (c.Load).1 = { c with
      loaded := true, current := mapAll f c.current,
      loadCalls := c.loadCalls + 1,
      sections := (runChanges c.sections (mapAll f c.current)).1,
      log := c.log ++ (runChanges c.sections (mapAll f c.current)).2 } := by
    rw [h1]
  have hl2 : (c.Load).1.loader = some (iniLoadFn f) := by rw [hL1]; exact hl
  have hres2 : iniLoadFn f (c.Load).1.current = (mapAll f c.current, none) := by
    rw [hL1]
    show (mapAll f (mapAll f c.current), none) = _
    rw [mapAll_idem]
  have h2 := Load_ok ((c.Load).1) _ _ hl2 hres2
  have hstable := runChanges_stable c.sections (mapAll f c.current) hm
  have hsecs : (c.Load).1.sections =
      (runChanges c.sections (mapAll f c.current)).1 := by rw [hL1]
  refine ⟨hL2, ?_, ?_, ?_⟩
  · show ((c.Load).1.Load).2 = none
    rw [h2]
  · show ((c.Load).1.Load).1.log = (c.Load).1.log
    rw [h2]
    dsimp only
    rw [hsecs, hstable]
    simp
  · rw [hL1]
    dsimp only
    rw [runChanges_snd]
    refine congrArg (c.log ++ ·) (congrArg List.flatten (List.map_congr_left ?_))
    intro p hp
    exact change_first p.2 _ (hm p hp) (hsig p hp)

theorem C6_witness :
    (∀ p ∈ scenCfg.sections,
      (marshalCurrent (alookup (mapAll fileFoo scenCfg.current) p.1)).isSome
        = true) ∧
    (∀ p ∈ scenCfg.sections, p.2.signature = "" ∨
      p.2.signature =
        sigString (marshalCurrent (alookup (mapAll fileFoo scenCfg.current) p.1))) ∧
    ((scenCfg.Load).2 = none ∧
      ((scenCfg.Load).1.Reload).2 = none ∧
      ((scenCfg.Load).1.Reload).1.log = (scenCfg.Load).1.log ∧
      (scenCfg.Load).1.log = scenCfg.log ++ (scenCfg.sections.map (fun p =>
        if p.2.signature = "" then
          p.2.onchange.map (fun o => (o, alookup (mapAll fileFoo scenCfg.current) p.1))
        else [])).flatten) :=
  ⟨by decide, by decide, C6_idempotent scenCfg fileFoo rfl (by decide) (by decide)⟩

/-- C7: when the serialized current value differs from the stored signature
— including the first load (`signature` starts `""` and successful
serializations are never empty, `jsonMarshal_ne_empty`) and including a
serialization failure — `change` (the per-section notification step run by
every successful `Load`/`Reload`) invokes every attached observer exactly
once, in attachment order, with the section's current value, and then
replaces the signature with the new serialization (the empty string when
marshalling failed, matching `string(nil)`). -/
theorem C7_notify (s : Section) (cur : Option Val)
    (h : marshalCurrent cur = none ∨
      sigString (marshalCurrent cur) ≠ s.signature) :
    s.change cur =
      ({ s with signature := sigString (marshalCurrent cur) },
        s.onchange.map (fun o => (o, cur))) :=
  change_fire s cur h

theorem C7_witness :
    (marshalCurrent (some (cfgKN "a" "b")) = none ∨
      sigString (marshalCurrent (some (cfgKN "a" "b"))) ≠
        (⟨⟨cfgKN "" ""⟩, true, "", [3, 4]⟩ : Section).signature) ∧
    (⟨⟨cfgKN "" ""⟩, true, "", [3, 4]⟩ : Section).change (some (cfgKN "a" "b")) =
      ({ (⟨⟨cfgKN "" ""⟩, true, "", [3, 4]⟩ : Section) with
          signature := sigString (marshalCurrent (some (cfgKN "a" "b"))) },
        [3, 4].map (fun o => (o, some (cfgKN "a" "b")))) :=
  ⟨by decide, C7_notify ⟨⟨cfgKN "" ""⟩, true, "", [3, 4]⟩ (some (cfgKN "a" "b"))
    (by decide)⟩

/-- C8: with no loader configured, `Load()` (and the identical `Reload()`)
returns the dedicated `ErrNoLoader` error synchronously; no observer runs,
no section is touched, and the only state change is the `loaded` flag (the
model's totality is the absence of a panic). -/
theorem C8_no_loader (c : Config) (h : c.loader = none) :
    c.Load = ({ c with loaded := true }, some errNoLoader) ∧
    c.Reload = ({ c with loaded := true }, some errNoLoader) :=
  ⟨Load_noLoader c h, Load_noLoader c h⟩

theorem C8_witness :
    (Config.new none).loader = none ∧
    ((Config.new none).Load =
        ({ Config.new none with loaded := true }, some errNoLoader) ∧
      (Config.new none).Reload =
        ({ Config.new none with loaded := true }, some errNoLoader)) :=
  ⟨rfl, C8_no_loader (Config.new none) rfl⟩

/-- C9: late binding.  On a registry that has completed a `Load` (`loaded`)
and a name with a registered section (hence a current value),
`Reconfigure(name, observer)` succeeds and synchronously appends exactly one
invocation of the observer, carrying the section's current value, to the
log before returning. -/
theorem C9_late_binding (c : Config) (name : String) (r : Nat) (s : Section)
    (v : Val) (hld : c.loaded = true)
    (hs : alookup c.sections name = some s)
    (hv : alookup c.current name = some v) :
    ∃ c', c.Reconfigure name r = some (c', true) ∧
      c'.log = c.log ++ [(r, some v)] :=
  ⟨_, reconfigure_loaded c name r hld hs hv, rfl⟩

theorem C9_witness :
    scenLoaded.loaded = true ∧
    alookup scenLoaded.sections "section" =
      some ⟨⟨cfgKN "" ""⟩, true, "\x7b\"Key\":\"foo\",\"None\":\"foobar\"\x7d", [0]⟩ ∧
    alookup scenLoaded.current "section" = some (cfgKN "foo" "foobar") ∧
    (∃ c', scenLoaded.Reconfigure "section" 7 = some (c', true) ∧
      c'.log = scenLoaded.log ++ [(7, some (cfgKN "foo" "foobar"))]) :=
  ⟨by decide, by decide, by decide,
    C9_late_binding scenLoaded "section" 7
      ⟨⟨cfgKN "" ""⟩, true, "\x7b\"Key\":\"foo\",\"None\":\"foobar\"\x7d", [0]⟩
      (cfgKN "foo" "foobar") (by decide) (by decide) (by decide)⟩

/-- C10: `Load()` sets the `loaded` flag before attempting the load, so even
a `Load` that fails with `ErrNoLoader` leaves the registry marked as loaded;
a subsequent `Reconfigure` on an already-registered section therefore still
immediately invokes the observer with the section's current value — here its
registered defaults, since no load ever succeeded. -/
theorem C10_loaded_despite_failure (c : Config) (name : String) (v : Val)
    (obs : Option Nat) (r : Nat) (hl : c.loader = none)
    (hnew : alookup c.sections name = none) (hld : c.loaded = false) :
    ((c.Register name v obs).1.Load).2 = some errNoLoader ∧
    ((c.Register name v obs).1.Load).1.loaded = true ∧
    (∃ c', ((c.Register name v obs).1.Load).1.Reconfigure name r =
        some (c', true) ∧
      c'.log = ((c.Register name v obs).1.Load).1.log ++ [(r, some v)]) := by
  have hreg := Register_fresh c name v obs hnew hld
  have hL := Load_noLoader
    ({ c with
      sections := c.sections ++ [(name, ⟨⟨zeroVal v⟩, true, "", obs.toList⟩)],
      current := setEntry c.current name v } : Config) hl
  refine ⟨?_, ?_, ?_⟩
  · rw [hreg]
    dsimp only
    rw [hL]
  · rw [hreg]
    dsimp only
    rw [hL]
  · rw [hreg]
    dsimp only
    rw [hL]
    dsimp only
    have hs2 : alookup
        (c.sections ++ [(name, ⟨⟨zeroVal v⟩, true, "", obs.toList⟩)]) name =
        some ⟨⟨zeroVal v⟩, true, "", obs.toList⟩ := by
      rw [alookup_append _ hnew]
      simp
    exact ⟨_, reconfigure_loaded _ name r rfl hs2 (alookup_setEntry _ _ _), rfl⟩

theorem C10_witness :
    (Config.new none).loader = none ∧
    alookup (Config.new none).sections "s" = none ∧
    (Config.new none).loaded = false ∧
    ((((Config.new none).Register "s" (cfgKN "" "") none).1.Load).2 =
        some errNoLoader ∧
      (((Config.new none).Register "s" (cfgKN "" "") none).1.Load).1.loaded
        = true ∧
      (∃ c', (((Config.new none).Register "s" (cfgKN "" "") none).1.Load).1.Reconfigure
          "s" 9 = some (c', true) ∧
        c'.log = (((Config.new none).Register "s" (cfgKN "" "") none).1.Load).1.log
          ++ [(9, some (cfgKN "" ""))])) :=
  ⟨rfl, rfl, rfl,
    C10_loaded_despite_failure (Config.new none) "s" (cfgKN "" "") none 9
      rfl rfl rfl⟩

end Autoconfig
